import Mathlib

/-!
Verification development for the NanoScript compiler front end.

Each definition below is a shallow embedding of the corresponding C++
function of the repository (src/lexer.hpp, src/lexer.cpp, src/ast.hpp,
src/parser.hpp, the parser translation unit, src/codegen.hpp and
src/codegen.cpp).  Loops that walk the input are embedded with an explicit
fuel argument (structural recursion on a natural number); running out of
fuel is a distinguished outcome, separate from the error outcomes the C++
code can actually produce, so theorems about error results speak only
about behaviour the C++ code exhibits.
-/

namespace Nano

/-! ## Tokens (src/lexer.hpp) -/

inductive TokenType where
  | INT_LITERAL
  | IDENTIFIER
  | IF
  | OUT
  | ASSIGN
  | PLUS
  | MINUS
  | STAR
  | SLASH
  | EQ
  | NEQ
  | LT
  | GT
  | LEQ
  | GEQ
  | SEMICOLON
  | LPAREN
  | RPAREN
  | LBRACE
  | RBRACE
  | EOF_TOKEN
  deriving DecidableEq, Repr

structure Token where
  type  : TokenType
  value : String
  line  : Nat
  col   : Nat
  deriving DecidableEq, Repr

namespace Lexer

/-- State of class Lexer: the source text and the cursor fields
pos_, line_, col_ (line and column start at 1). -/
structure LState where
  source : List Char
  pos    : Nat
  line   : Nat
  col    : Nat
  deriving DecidableEq, Repr

/-- Lexer constructor: position 0, line 1, column 1. -/
def mkLexer (s : String) : LState := ⟨s.toList, 0, 1, 1⟩

/-- Lexer::peek — bounds-checked read; returns the NUL character past the end. -/
def peek (st : LState) (offset : Nat) : Char :=
  if st.pos + offset < st.source.length then st.source.getD (st.pos + offset) (Char.ofNat 0)
  else Char.ofNat 0

/-- Lexer::advance — consume one character, updating line/col. -/
def advance (st : LState) : Char × LState :=
  let c := st.source.getD st.pos (Char.ofNat 0)
  if c = '\n' then (c, { st with pos := st.pos + 1, line := st.line + 1, col := 1 })
  else (c, { st with pos := st.pos + 1, col := st.col + 1 })

/-- std::isspace over the ASCII range used by the lexer. -/
def isSpaceC (c : Char) : Bool :=
  c = ' ' || c = '\t' || c = '\n' || c = Char.ofNat 11 || c = Char.ofNat 12 || c = '\r'

/-- std::isdigit. -/
def isDigitC (c : Char) : Bool := decide ('0' ≤ c) && decide (c ≤ '9')

/-- std::isalpha over ASCII. -/
def isAlphaC (c : Char) : Bool :=
  (decide ('a' ≤ c) && decide (c ≤ 'z')) || (decide ('A' ≤ c) && decide (c ≤ 'Z'))

/-- std::isalnum over ASCII. -/
def isAlnumC (c : Char) : Bool := isAlphaC c || isDigitC c

/-- The inner comment loop of skipWhitespaceAndComments:
consume until a newline or the end of the source. -/
def skipComment : Nat → LState → LState
  | 0, st => st
  | n + 1, st =>
    if st.pos < st.source.length ∧ peek st 0 ≠ '\n' then skipComment n (advance st).2
    else st

/-- Lexer::skipWhitespaceAndComments. -/
def skipWhitespaceAndComments : Nat → LState → LState
  | 0, st => st
  | n + 1, st =>
    if st.pos < st.source.length then
      let c := peek st 0
      if isSpaceC c then skipWhitespaceAndComments n (advance st).2
      else if c = '/' ∧ peek st 1 = '/' then
        skipWhitespaceAndComments n (skipComment (st.source.length + 1) st)
      else st
    else st

/-- The greedy digit loop of Lexer::lexNumber. -/
def lexNumberLoop : Nat → LState → String → String × LState
  | 0, st, acc => (acc, st)
  | n + 1, st, acc =>
    if st.pos < st.source.length ∧ isDigitC (peek st 0) then
      let p := advance st
      lexNumberLoop n p.2 (acc.push p.1)
    else (acc, st)

/-- Lexer::lexNumber — records the start position, consumes the maximal digit run. -/
def lexNumber (st : LState) : Token × LState :=
  let startLine := st.line
  let startCol := st.col
  let r := lexNumberLoop (st.source.length + 1) st ""
  (⟨TokenType.INT_LITERAL, r.1, startLine, startCol⟩, r.2)

/-- The greedy identifier loop of Lexer::lexIdentifierOrKeyword. -/
def lexIdentLoop : Nat → LState → String → String × LState
  | 0, st, acc => (acc, st)
  | n + 1, st, acc =>
    if st.pos < st.source.length ∧ (isAlnumC (peek st 0) || peek st 0 = '_') = true then
      let p := advance st
      lexIdentLoop n p.2 (acc.push p.1)
    else (acc, st)

/-- Lexer::lexIdentifierOrKeyword — maximal identifier, then keyword reclassification. -/
def lexIdentifierOrKeyword (st : LState) : Token × LState :=
  let startLine := st.line
  let startCol := st.col
  let r := lexIdentLoop (st.source.length + 1) st ""
  let ty :=
    if r.1 = "if" then TokenType.IF
    else if r.1 = "out" then TokenType.OUT
    else TokenType.IDENTIFIER
  (⟨ty, r.1, startLine, startCol⟩, r.2)

/-- Result of Lexer::tokenize: the token list, or the message of the thrown
std::runtime_error; fuelOut marks fuel exhaustion of the embedding only. -/
inductive LexRes where
  | ok (tokens : List Token)
  | err (msg : String)
  | fuelOut
  deriving DecidableEq, Repr

/-- The message thrown for a bare exclamation mark (lexer.cpp line 87). -/
def bangMsg (line : Nat) : String :=
  "Unexpected \x27!\x27 at line " ++ toString line

/-- The message thrown for an unrecognized character (lexer.cpp lines 107-109). -/
def charMsg (c : Char) (line : Nat) : String :=
  "Unexpected character \x27" ++ Char.toString c ++ "\x27 at line " ++ toString line

/-- The while(true) loop of Lexer::tokenize. -/
def tokenizeLoop : Nat → LState → List Token → LexRes
  | 0, _, _ => .fuelOut
  | n + 1, st0, acc =>
    let st := skipWhitespaceAndComments (st0.source.length + 1) st0
    if st.source.length ≤ st.pos then
      .ok (acc ++ [⟨TokenType.EOF_TOKEN, "", st.line, st.col⟩])
    else
      let startLine := st.line
      let startCol := st.col
      let c := peek st 0
      if isDigitC c then
        let r := lexNumber st
        tokenizeLoop n r.2 (acc ++ [r.1])
      else if (isAlphaC c || c = '_') = true then
        let r := lexIdentifierOrKeyword st
        tokenizeLoop n r.2 (acc ++ [r.1])
      else
        let st2 := (advance st).2
        if c = '=' then
          if peek st2 0 = '=' then
            tokenizeLoop n (advance st2).2 (acc ++ [⟨TokenType.EQ, "==", startLine, startCol⟩])
          else tokenizeLoop n st2 (acc ++ [⟨TokenType.ASSIGN, "=", startLine, startCol⟩])
        else if c = '!' then
          if peek st2 0 = '=' then
            tokenizeLoop n (advance st2).2 (acc ++ [⟨TokenType.NEQ, "!=", startLine, startCol⟩])
          else .err (bangMsg startLine)
        else if c = '<' then
          if peek st2 0 = '=' then
            tokenizeLoop n (advance st2).2 (acc ++ [⟨TokenType.LEQ, "<=", startLine, startCol⟩])
          else tokenizeLoop n st2 (acc ++ [⟨TokenType.LT, "<", startLine, startCol⟩])
        else if c = '>' then
          if peek st2 0 = '=' then
            tokenizeLoop n (advance st2).2 (acc ++ [⟨TokenType.GEQ, ">=", startLine, startCol⟩])
          else tokenizeLoop n st2 (acc ++ [⟨TokenType.GT, ">", startLine, startCol⟩])
        else if c = '+' then tokenizeLoop n st2 (acc ++ [⟨TokenType.PLUS, "+", startLine, startCol⟩])
        else if c = '-' then tokenizeLoop n st2 (acc ++ [⟨TokenType.MINUS, "-", startLine, startCol⟩])
        else if c = '*' then tokenizeLoop n st2 (acc ++ [⟨TokenType.STAR, "*", startLine, startCol⟩])
        else if c = '/' then tokenizeLoop n st2 (acc ++ [⟨TokenType.SLASH, "/", startLine, startCol⟩])
        else if c = ';' then
          tokenizeLoop n st2 (acc ++ [⟨TokenType.SEMICOLON, ";", startLine, startCol⟩])
        else if c = '(' then
          tokenizeLoop n st2 (acc ++ [⟨TokenType.LPAREN, "(", startLine, startCol⟩])
        else if c = ')' then
          tokenizeLoop n st2 (acc ++ [⟨TokenType.RPAREN, ")", startLine, startCol⟩])
        else if c = Char.ofNat 123 then
          tokenizeLoop n st2 (acc ++ [⟨TokenType.LBRACE, "\x7b", startLine, startCol⟩])
        else if c = Char.ofNat 125 then
          tokenizeLoop n st2 (acc ++ [⟨TokenType.RBRACE, "\x7d", startLine, startCol⟩])
        else .err (charMsg c startLine)

/-- Lexer::tokenize.  One fuel unit per loop iteration; each iteration other
than the final one consumes at least one source character, so length + 1
units always suffice. -/
def tokenize (s : String) : LexRes :=
  tokenizeLoop (s.toList.length + 1) (mkLexer s) []

end Lexer

/-! ## AST (src/ast.hpp)

ExprNode is the expression part of the node hierarchy; each node carries
the line/col of its defining token.  The statement nodes are a mutual pair
StmtNode/StmtList so that all recursion over if-bodies is plain structural
recursion; StmtList is the std::vector of statements of IfNode and
ProgramNode, with push_back embedded as concat. -/

inductive ExprNode where
  | intLit (value : Int) (line col : Nat)
  | varRef (name : String) (line col : Nat)
  | binop (opStr : String) (left right : ExprNode) (line col : Nat)
  deriving DecidableEq, Repr

mutual

inductive StmtNode where
  | assignment (varName : String) (value : ExprNode) (line col : Nat)
  | ifStmt (condition : ExprNode) (body : StmtList) (line col : Nat)
  | outStmt (expr : ExprNode) (line col : Nat)

inductive StmtList where
  | nil
  | cons (s : StmtNode) (rest : StmtList)

end

/-- std::vector::push_back on a statement list. -/
def StmtList.concat : StmtList → StmtNode → StmtList
  | .nil, s => .cons s .nil
  | .cons a r, s => .cons a (r.concat s)

namespace Parser

/-- State of class Parser: the token vector and the cursor pos_. -/
structure PState where
  tokens : List Token
  pos    : Nat
  deriving DecidableEq, Repr

/-- Placeholder for the unchecked vector accesses of the C++ code; tokenize
always produces a non-empty vector, so these defaults are never read on the
paths the compiler takes. -/
def defaultToken : Token := ⟨TokenType.EOF_TOKEN, "", 0, 0⟩

/-- Parser::peek — returns the last token when the index is past the end. -/
def peek (st : PState) (offset : Nat) : Token :=
  if st.pos + offset < st.tokens.length then st.tokens.getD (st.pos + offset) defaultToken
  else st.tokens.getLastD defaultToken

/-- Parser::advance — bump pos_ if not past the end, return tokens_[pos_ - 1]. -/
def advance (st : PState) : Token × PState :=
  let st2 := if st.pos < st.tokens.length then { st with pos := st.pos + 1 } else st
  (st2.tokens.getD (st2.pos - 1) defaultToken, st2)

/-- Parser::check. -/
def check (st : PState) (t : TokenType) : Bool := (peek st 0).type == t

/-- Result of a parsing routine: the value and the state after it, or the
message of the thrown std::runtime_error; fuelOut marks fuel exhaustion of
the embedding only. -/
inductive PRes (α : Type) where
  | ok (a : α) (st : PState)
  | err (msg : String)
  | fuelOut

/-- Parser::expect — advance past a token of the given type or throw. -/
def expect (st : PState) (t : TokenType) (msg : String) : PRes Token :=
  if check st t then
    let p := advance st
    .ok p.1 p.2
  else
    .err ("Parse error at line " ++ toString (peek st 0).line ++ ", col "
      ++ toString (peek st 0).col ++ ": " ++ msg ++ " (got \x27"
      ++ (peek st 0).value ++ "\x27)")

/-- Digit-string value used by std::stoll on an integer-literal lexeme. -/
def digitsVal (s : String) : Nat :=
  s.toList.foldl (fun a c => a * 10 + (c.toNat - 48)) 0

/-- std::stoll applied to the digit-only lexeme of an INT_LITERAL token:
the exact value when it fits the signed 64-bit range, otherwise the call
throws std::out_of_range, which aborts the compilation. -/
def stollDigits (s : String) : Except String Int :=
  if digitsVal s ≤ 2 ^ 63 - 1 then .ok (Int.ofNat (digitsVal s))
  else .error "stoll: out of range"

mutual

/-- Parser::parseExpr. -/
def parseExpr : Nat → PState → PRes ExprNode
  | 0, _ => .fuelOut
  | n + 1, st => parseComparison n st

/-- Parser::parseComparison — first operand, then the comparison chain. -/
def parseComparison : Nat → PState → PRes ExprNode
  | 0, _ => .fuelOut
  | n + 1, st =>
    match parseAddSub n st with
    | .ok left st2 => parseComparisonLoop n left st2
    | .err m => .err m
    | .fuelOut => .fuelOut

/-- The while loop of Parser::parseComparison. -/
def parseComparisonLoop : Nat → ExprNode → PState → PRes ExprNode
  | 0, _, _ => .fuelOut
  | n + 1, left, st =>
    if check st .EQ || check st .NEQ || check st .LT || check st .GT
        || check st .LEQ || check st .GEQ then
      let p := advance st
      match parseAddSub n p.2 with
      | .ok right st3 =>
        parseComparisonLoop n (.binop p.1.value left right p.1.line p.1.col) st3
      | .err m => .err m
      | .fuelOut => .fuelOut
    else .ok left st

/-- Parser::parseAddSub. -/
def parseAddSub : Nat → PState → PRes ExprNode
  | 0, _ => .fuelOut
  | n + 1, st =>
    match parseMulDiv n st with
    | .ok left st2 => parseAddSubLoop n left st2
    | .err m => .err m
    | .fuelOut => .fuelOut

/-- The while loop of Parser::parseAddSub. -/
def parseAddSubLoop : Nat → ExprNode → PState → PRes ExprNode
  | 0, _, _ => .fuelOut
  | n + 1, left, st =>
    if check st .PLUS || check st .MINUS then
      let p := advance st
      match parseMulDiv n p.2 with
      | .ok right st3 =>
        parseAddSubLoop n (.binop p.1.value left right p.1.line p.1.col) st3
      | .err m => .err m
      | .fuelOut => .fuelOut
    else .ok left st

/-- Parser::parseMulDiv. -/
def parseMulDiv : Nat → PState → PRes ExprNode
  | 0, _ => .fuelOut
  | n + 1, st =>
    match parsePrimary n st with
    | .ok left st2 => parseMulDivLoop n left st2
    | .err m => .err m
    | .fuelOut => .fuelOut

/-- The while loop of Parser::parseMulDiv. -/
def parseMulDivLoop : Nat → ExprNode → PState → PRes ExprNode
  | 0, _, _ => .fuelOut
  | n + 1, left, st =>
    if check st .STAR || check st .SLASH then
      let p := advance st
      match parsePrimary n p.2 with
      | .ok right st3 =>
        parseMulDivLoop n (.binop p.1.value left right p.1.line p.1.col) st3
      | .err m => .err m
      | .fuelOut => .fuelOut
    else .ok left st

/-- Parser::parsePrimary. -/
def parsePrimary : Nat → PState → PRes ExprNode
  | 0, _ => .fuelOut
  | n + 1, st =>
    if check st .INT_LITERAL then
      let p := advance st
      match stollDigits p.1.value with
      | .ok v => .ok (.intLit v p.1.line p.1.col) p.2
      | .error m => .err m
    else if check st .IDENTIFIER then
      let p := advance st
      .ok (.varRef p.1.value p.1.line p.1.col) p.2
    else if check st .LPAREN then
      let p := advance st
      match parseExpr n p.2 with
      | .ok e st3 =>
        match expect st3 .RPAREN "Expected \x27)\x27 to close expression" with
        | .ok _ st4 => .ok e st4
        | .err m => .err m
        | .fuelOut => .fuelOut
      | .err m => .err m
      | .fuelOut => .fuelOut
    else
      .err ("Parse error at line " ++ toString (peek st 0).line
        ++ ": expected expression, got \x27" ++ (peek st 0).value ++ "\x27")

/-- Parser::parseStatement — dispatch on the first token. -/
def parseStatement : Nat → PState → PRes StmtNode
  | 0, _ => .fuelOut
  | n + 1, st =>
    if check st .IF then parseIf n st
    else if check st .OUT then parseOut n st
    else if check st .IDENTIFIER then parseAssignment n st
    else
      .err ("Parse error at line " ++ toString (peek st 0).line
        ++ ": unexpected token \x27" ++ (peek st 0).value ++ "\x27")

/-- Parser::parseAssignment. -/
def parseAssignment : Nat → PState → PRes StmtNode
  | 0, _ => .fuelOut
  | n + 1, st =>
    match expect st .IDENTIFIER "Expected identifier" with
    | .ok id st2 =>
      match expect st2 .ASSIGN "Expected \x27=\x27 after identifier" with
      | .ok _ st3 =>
        match parseExpr n st3 with
        | .ok val st4 =>
          match expect st4 .SEMICOLON "Expected \x27;\x27 after expression" with
          | .ok _ st5 => .ok (.assignment id.value val id.line id.col) st5
          | .err m => .err m
          | .fuelOut => .fuelOut
        | .err m => .err m
        | .fuelOut => .fuelOut
      | .err m => .err m
      | .fuelOut => .fuelOut
    | .err m => .err m
    | .fuelOut => .fuelOut

/-- Parser::parseIf. -/
def parseIf : Nat → PState → PRes StmtNode
  | 0, _ => .fuelOut
  | n + 1, st =>
    match expect st .IF "Expected \x27if\x27" with
    | .ok tok st2 =>
      match expect st2 .LPAREN "Expected \x27(\x27 after \x27if\x27" with
      | .ok _ st3 =>
        match parseExpr n st3 with
        | .ok cond st4 =>
          match expect st4 .RPAREN "Expected \x27)\x27 after condition" with
          | .ok _ st5 =>
            match expect st5 .LBRACE "Expected \x27\x7b\x27 to open if-body" with
            | .ok _ st6 =>
              match parseIfBody n .nil st6 with
              | .ok body st7 =>
                match expect st7 .RBRACE "Expected \x27\x7d\x27 to close if-body" with
                | .ok _ st8 => .ok (.ifStmt cond body tok.line tok.col) st8
                | .err m => .err m
                | .fuelOut => .fuelOut
              | .err m => .err m
              | .fuelOut => .fuelOut
            | .err m => .err m
            | .fuelOut => .fuelOut
          | .err m => .err m
          | .fuelOut => .fuelOut
        | .err m => .err m
        | .fuelOut => .fuelOut
      | .err m => .err m
      | .fuelOut => .fuelOut
    | .err m => .err m
    | .fuelOut => .fuelOut

/-- The body loop of Parser::parseIf: parse statements until a closing brace
or the end of input. -/
def parseIfBody : Nat → StmtList → PState → PRes StmtList
  | 0, _, _ => .fuelOut
  | n + 1, acc, st =>
    if !check st .RBRACE && !check st .EOF_TOKEN then
      match parseStatement n st with
      | .ok s st2 => parseIfBody n (acc.concat s) st2
      | .err m => .err m
      | .fuelOut => .fuelOut
    else .ok acc st

/-- Parser::parseOut. -/
def parseOut : Nat → PState → PRes StmtNode
  | 0, _ => .fuelOut
  | n + 1, st =>
    match expect st .OUT "Expected \x27out\x27" with
    | .ok tok st2 =>
      match parseExpr n st2 with
      | .ok e st3 =>
        match expect st3 .SEMICOLON "Expected \x27;\x27 after out-expression" with
        | .ok _ st4 => .ok (.outStmt e tok.line tok.col) st4
        | .err m => .err m
        | .fuelOut => .fuelOut
      | .err m => .err m
      | .fuelOut => .fuelOut
    | .err m => .err m
    | .fuelOut => .fuelOut

end

/-- The while loop of Parser::parse. -/
def parseProgramLoop : Nat → StmtList → PState → PRes StmtList
  | 0, _, _ => .fuelOut
  | n + 1, acc, st =>
    if !check st .EOF_TOKEN then
      match parseStatement n st with
      | .ok s st2 => parseProgramLoop n (acc.concat s) st2
      | .err m => .err m
      | .fuelOut => .fuelOut
    else .ok acc st

/-- Parser::parse.  Ten fuel units per token always suffice: every unit of
recursion depth either consumes a token or descends one level of the fixed
five-level expression grammar. -/
def parse (tokens : List Token) : PRes StmtList :=
  parseProgramLoop (10 * tokens.length + 10) .nil ⟨tokens, 0⟩

end Parser

namespace Codegen

/-- BuildConfig (src/codegen.hpp): optimisation level and debug-info presence. -/
inductive BuildConfig where
  | Debug
  | Development
  | Shipping
  deriving DecidableEq, Repr

/-- The value an expression walk of Codegen::genExpr produces: the tree of
LLVM instructions built for it.  Only icmp has type i1; every other node has
type i64. -/
inductive IRVal where
  | constInt (n : Int)
  | load (slot : Nat) (name : String)
  | add (l r : IRVal)
  | sub (l r : IRVal)
  | mul (l r : IRVal)
  | sdiv (l r : IRVal)
  | icmp (pred : String) (l r : IRVal)
  | sext (v : IRVal)
  deriving DecidableEq, Repr

/-- Whether the value has the full-width integer type (cond->getType() == int64Ty_):
only a bare CreateICmp result is i1. -/
def IRVal.isI64 : IRVal → Bool
  | .icmp _ _ _ => false
  | _ => true

/-- The mutable state of class Codegen that the statement walk touches:
the symbol table variables_ (name → entry-block alloca, identified by its
allocation index), the next allocation index, the insertDeclare records the
DIBuilder has accumulated, and whether debug info is present (diBuilder_
non-null, i.e. config_ != Shipping). -/
structure CGState where
  variables_ : List (String × Nat)
  nextSlot  : Nat
  diRecords : List (String × Nat × Nat)
  debugInfo : Bool
  deriving DecidableEq, Repr

/-- The runtime_error exits of the codegen walk; outOfFuel marks fuel
exhaustion of the embedding only and corresponds to no C++ behaviour. -/
inductive CGErr where
  | undefinedVariable (name : String) (line : Nat)
  | unknownOperator (op : String)
  | outOfFuel
  deriving DecidableEq, Repr

/-- std::map::find on variables_. -/
def lookupVar : List (String × Nat) → String → Option Nat
  | [], _ => none
  | (k, v) :: r, x => if k = x then some v else lookupVar r x

/-- Codegen::genExpr (codegen.cpp lines 288-329).  setDebugLoc calls are
position-stamping only and do not affect the produced value. -/
def genExpr (st : CGState) : ExprNode → Except CGErr IRVal
  | .intLit v _ _ => .ok (.constInt v)
  | .varRef n ln _ =>
    match lookupVar st.variables_ n with
    | none => .error (.undefinedVariable n ln)
    | some slot => .ok (.load slot n)
  | .binop op l r _ _ =>
    match genExpr st l with
    | .error e => .error e
    | .ok lhs =>
      match genExpr st r with
      | .error e => .error e
      | .ok rhs =>
        if op = "+" then .ok (.add lhs rhs)
        else if op = "-" then .ok (.sub lhs rhs)
        else if op = "*" then .ok (.mul lhs rhs)
        else if op = "/" then .ok (.sdiv lhs rhs)
        else if op = "==" then .ok (.sext (.icmp "eq" lhs rhs))
        else if op = "!=" then .ok (.sext (.icmp "ne" lhs rhs))
        else if op = "<" then .ok (.sext (.icmp "slt" lhs rhs))
        else if op = ">" then .ok (.sext (.icmp "sgt" lhs rhs))
        else if op = "<=" then .ok (.sext (.icmp "sle" lhs rhs))
        else if op = ">=" then .ok (.sext (.icmp "sge" lhs rhs))
        else .error (.unknownOperator op)

/-- Codegen::genAssignment (codegen.cpp lines 216-242): when the target is
unseen, createEntryAlloca a fresh slot and register it (plus, under debug
info, an insertDeclare record at the node position) BEFORE the right-hand
side is evaluated; then evaluate the expression and store. -/
def genAssignment (st : CGState) (varName : String) (value : ExprNode)
    (line col : Nat) : Except CGErr CGState :=
  let st1 :=
    if lookupVar st.variables_ varName = none then
      { st with
        variables_ := st.variables_ ++ [(varName, st.nextSlot)],
        nextSlot := st.nextSlot + 1,
        diRecords := st.diRecords ++ (if st.debugInfo then [(varName, line, col)] else []) }
    else st
  match genExpr st1 value with
  | .error e => .error e
  | .ok _ => .ok st1

mutual

/-- Codegen::genStatement (codegen.cpp lines 198-212) with Codegen::genIf
(lines 246-269) inlined in the If arm: the condition is evaluated (and, being
i64, tested against zero), then the body statements are generated into the
then-block with the same symbol table; nothing is ever removed from the
table, and generation resumes in the merge block with the state the body
produced. -/
def genStatement : StmtNode → CGState → Except CGErr CGState
  | .assignment x e ln cl, st => genAssignment st x e ln cl
  | .ifStmt cond body _ _, st =>
    match genExpr st cond with
    | .error e => .error e
    | .ok _c => genStmtList body st
  | .outStmt e _ _, st =>
    match genExpr st e with
    | .error er => .error er
    | .ok _ => .ok st

/-- The statement loop of Codegen::generate (and of the then-block of genIf). -/
def genStmtList : StmtList → CGState → Except CGErr CGState
  | .nil, st => .ok st
  | .cons s r, st =>
    match genStatement s st with
    | .error e => .error e
    | .ok st2 => genStmtList r st2

end

/-- The state the Codegen constructor (codegen.cpp lines 15-33) establishes:
empty symbol table, no records, debug info present exactly when the config
is not Shipping. -/
def initialState (config : BuildConfig) : CGState :=
  { variables_ := [], nextSlot := 0, diRecords := [],
    debugInfo := decide (config ≠ BuildConfig.Shipping) }

/-- The statement walk of Codegen::generate (codegen.cpp lines 172-176). -/
def generate (config : BuildConfig) (program : StmtList) : Except CGErr CGState :=
  genStmtList program (initialState config)

/-- The pipeline Codegen::optimize (codegen.cpp lines 333-357) selects:
Debug returns immediately, Development builds the per-module default
pipeline at O2, Shipping builds the LTO default pipeline at O3. -/
inductive OptPipeline where
  | noPasses
  | perModuleO2
  | ltoO3
  deriving DecidableEq, Repr

def optimizePipeline : BuildConfig → OptPipeline
  | .Debug => .noPasses
  | .Development => .perModuleO2
  | .Shipping => .ltoO3

/-- The four tail phases of Codegen::generate (codegen.cpp lines 178-194),
in the order the code performs them. -/
inductive Phase where
  | appendRet
  | finalizeDebugInfo
  | runOptimize (p : OptPipeline)
  | verifyModule
  deriving DecidableEq, Repr

/-- The order of the tail of Codegen::generate: CreateRet of 0, DIBuilder
finalization when debug info is present, optimize(), and only then
llvm::verifyModule. -/
def generatePhases (config : BuildConfig) : List Phase :=
  [Phase.appendRet]
    ++ (if config ≠ BuildConfig.Shipping then [Phase.finalizeDebugInfo] else [])
    ++ [Phase.runOptimize (optimizePipeline config), Phase.verifyModule]

/-- The verification step (codegen.cpp lines 188-193): if verifyModule
reports errors, throw a runtime_error carrying the full diagnostic text. -/
def verifyOutcome (verifierErrors : Option String) : Except String Unit :=
  match verifierErrors with
  | some errors => .error ("LLVM module verification failed:\n" ++ errors)
  | none => .ok ()

/-- Two's-complement wrap of an i64 value. -/
def wrap64 (z : Int) : Int := (z + 2 ^ 63) % 2 ^ 64 - 2 ^ 63

/-- Semantics of the CreateICmp predicates the codegen emits. -/
def icmpHolds (pred : String) (a b : Int) : Bool :=
  if pred = "eq" then decide (a = b)
  else if pred = "ne" then decide (a ≠ b)
  else if pred = "slt" then decide (a < b)
  else if pred = "sgt" then decide (b < a)
  else if pred = "sle" then decide (a ≤ b)
  else if pred = "sge" then decide (b ≤ a)
  else false

/-- LLVM semantics of the value trees genExpr emits, given the i64 contents
of the storage slots.  An icmp yields the one-bit value 1 or 0; sext from i1
to i64 replicates that bit, so the one-bit value 1 becomes the all-ones
pattern, which is -1 as a signed i64. -/
def evalIRVal (mem : Nat → Int) : IRVal → Int
  | .constInt n => wrap64 n
  | .load slot _ => mem slot
  | .add l r => wrap64 (evalIRVal mem l + evalIRVal mem r)
  | .sub l r => wrap64 (evalIRVal mem l - evalIRVal mem r)
  | .mul l r => wrap64 (evalIRVal mem l * evalIRVal mem r)
  | .sdiv l r => wrap64 (Int.tdiv (evalIRVal mem l) (evalIRVal mem r))
  | .icmp p l r => if icmpHolds p (evalIRVal mem l) (evalIRVal mem r) then 1 else 0
  | .sext v => if evalIRVal mem v = 1 then -1 else 0

/-! ### Specification-side descriptions of the walk

The following definitions restate, as pure functions of the AST, what the
stateful walk above does to the symbol table and the debug records; the
lemmas further below prove the correspondence. -/

/-- The names of the symbol table, in insertion order. -/
def tableNames (l : List (String × Nat)) : List String := l.map Prod.fst

/-- Pair each declaration record with its storage slot, slots numbered
consecutively from the given allocation index. -/
def withSlots : Nat → List (String × Nat × Nat) → List (String × Nat)
  | _, [] => []
  | k, (x, _, _) :: r => (x, k) :: withSlots (k + 1) r

/-- The state after a walk that found the given fresh declarations. -/
def nextState (st : CGState) (d : List (String × Nat × Nat)) : CGState :=
  { variables_ := st.variables_ ++ withSlots st.nextSlot d,
    nextSlot := st.nextSlot + d.length,
    diRecords := st.diRecords ++ (if st.debugInfo then d else []),
    debugInfo := st.debugInfo }

mutual

/-- First assignments (name, line, col) of a statement in traversal order,
given the names already seen. -/
def firstDecls (seen : List String) : StmtNode → List (String × Nat × Nat)
  | .assignment x _ ln cl => if x ∈ seen then [] else [(x, ln, cl)]
  | .ifStmt _ body _ _ => firstDeclsList seen body
  | .outStmt _ _ _ => []

/-- First assignments of a statement list in traversal order. -/
def firstDeclsList (seen : List String) : StmtList → List (String × Nat × Nat)
  | .nil => []
  | .cons s r =>
    firstDecls seen s
      ++ firstDeclsList (seen ++ (firstDecls seen s).map (fun p => p.1)) r

end

mutual

/-- Assignment targets of a statement, including those nested in if-bodies. -/
def stmtTargets : StmtNode → List String
  | .assignment x _ _ _ => [x]
  | .ifStmt _ body _ _ => stmtsTargets body
  | .outStmt _ _ _ => []

/-- Assignment targets of a statement list in traversal order. -/
def stmtsTargets : StmtList → List String
  | .nil => []
  | .cons s r => stmtTargets s ++ stmtsTargets r

end

/-- Variable names read by an expression. -/
def exprVars : ExprNode → List String
  | .intLit _ _ _ => []
  | .varRef n _ _ => [n]
  | .binop _ l r _ _ => exprVars l ++ exprVars r

/-- The operator lexemes the parser can put into a BinaryOpNode. -/
def knownOps : List String :=
  ["+", "-", "*", "/", "==", "!=", "<", ">", "<=", ">="]

/-- All operators of an expression are ones the codegen recognises. -/
def exprOpsOK : ExprNode → Bool
  | .intLit _ _ _ => true
  | .varRef _ _ _ => true
  | .binop op l r _ _ => decide (op ∈ knownOps) && exprOpsOK l && exprOpsOK r

end Codegen

/-! ### Concrete fixtures used by the claim theorems -/

/-- A source file whose if-body is left unterminated at the end of input. -/
def unterminatedIfSource : String := "if (1) \x7b out 1;"

/-- The token list tokenize produces for unterminatedIfSource. -/
def unterminatedIfTokens : List Token :=
  [⟨.IF, "if", 1, 1⟩, ⟨.LPAREN, "(", 1, 4⟩, ⟨.INT_LITERAL, "1", 1, 5⟩,
   ⟨.RPAREN, ")", 1, 6⟩, ⟨.LBRACE, "\x7b", 1, 8⟩, ⟨.OUT, "out", 1, 10⟩,
   ⟨.INT_LITERAL, "1", 1, 14⟩, ⟨.SEMICOLON, ";", 1, 15⟩, ⟨.EOF_TOKEN, "", 1, 16⟩]

/-- The comparison operator tokens: type together with the lexeme the lexer
pairs with it. -/
def cmpOps : List (TokenType × String) :=
  [(.EQ, "=="), (.NEQ, "!="), (.LT, "<"), (.GT, ">"), (.LEQ, "<="), (.GEQ, ">=")]

/-- The token sequence of a two-step comparison chain a CMP b CMP c followed
by end of input, with arbitrary positions. -/
def cmpChainTokens (t1 t2 : TokenType × String) (a b c : String)
    (la ca l1 c1 lb cb l2 c2 lc cc le ce : Nat) : List Token :=
  [⟨.IDENTIFIER, a, la, ca⟩, ⟨t1.1, t1.2, l1, c1⟩, ⟨.IDENTIFIER, b, lb, cb⟩,
   ⟨t2.1, t2.2, l2, c2⟩, ⟨.IDENTIFIER, c, lc, cc⟩, ⟨.EOF_TOKEN, "", le, ce⟩]

/-- An integer literal token followed by end of input. -/
def intLitTokens (s : String) (ln cl le ce : Nat) : List Token :=
  [⟨.INT_LITERAL, s, ln, cl⟩, ⟨.EOF_TOKEN, "", le, ce⟩]

/-- The token sequence of the assignment x = 9223372036854775808; —
a literal one past the largest signed 64-bit integer. -/
def hugeLiteralTokens : List Token :=
  [⟨.IDENTIFIER, "x", 1, 1⟩, ⟨.ASSIGN, "=", 1, 3⟩,
   ⟨.INT_LITERAL, "9223372036854775808", 1, 5⟩, ⟨.SEMICOLON, ";", 1, 24⟩,
   ⟨.EOF_TOKEN, "", 1, 25⟩]

/-! ## Lemmas about the symbol table and the statement walk -/

open Codegen

theorem lookupVar_eq_none_iff (l : List (String × Nat)) (x : String) :
    lookupVar l x = none ↔ x ∉ tableNames l := by
  induction l with
  | nil => simp [lookupVar, tableNames]
  | cons p r ih =>
    obtain ⟨k, v⟩ := p
    by_cases h : k = x
    · subst h
      simp [lookupVar, tableNames]
    · simp [lookupVar, h, tableNames, ih, Ne.symm h]

theorem lookupVar_append_some (l1 l2 : List (String × Nat)) (x : String) (v : Nat)
    (h : lookupVar l1 x = some v) : lookupVar (l1 ++ l2) x = some v := by
  induction l1 with
  | nil => simp [lookupVar] at h
  | cons p r ih =>
    obtain ⟨k, w⟩ := p
    by_cases hk : k = x
    · subst hk
      simp [lookupVar] at h ⊢
      exact h
    · simp [lookupVar, hk] at h ⊢
      exact ih h

theorem lookupVar_append_none (l1 l2 : List (String × Nat)) (x : String)
    (h : lookupVar l1 x = none) : lookupVar (l1 ++ l2) x = lookupVar l2 x := by
  induction l1 with
  | nil => simp [lookupVar]
  | cons p r ih =>
    obtain ⟨k, w⟩ := p
    by_cases hk : k = x
    · subst hk
      simp [lookupVar] at h
    · simp [lookupVar, hk] at h ⊢
      exact ih h

theorem withSlots_map_fst (d : List (String × Nat × Nat)) :
    ∀ k, List.map Prod.fst (withSlots k d) = d.map (fun p => p.1) := by
  induction d with
  | nil => intro k; simp [withSlots]
  | cons p r ih =>
    intro k
    obtain ⟨x, a, b⟩ := p
    simp [withSlots] at ih ⊢
    exact ih (k + 1)

theorem withSlots_append (d1 d2 : List (String × Nat × Nat)) :
    ∀ k, withSlots k (d1 ++ d2) = withSlots k d1 ++ withSlots (k + d1.length) d2 := by
  induction d1 with
  | nil => intro k; simp [withSlots]
  | cons p r ih =>
    intro k
    obtain ⟨x, a, b⟩ := p
    have : k + (r.length + 1) = k + 1 + r.length := by omega
    simp [withSlots, ih (k + 1), this]

theorem nextState_nil (st : CGState) : nextState st [] = st := by
  cases st
  simp [nextState, withSlots]

theorem nextState_append (st : CGState) (d1 d2 : List (String × Nat × Nat)) :
    nextState st (d1 ++ d2) = nextState (nextState st d1) d2 := by
  cases st with
  | mk vs ns dr di =>
    cases di <;> simp [nextState, withSlots_append, Nat.add_assoc]

theorem tableNames_nextState (st : CGState) (d : List (String × Nat × Nat)) :
    tableNames (nextState st d).variables_
      = tableNames st.variables_ ++ d.map (fun p => p.1) := by
  simp [nextState, tableNames, withSlots_map_fst]

mutual

/-- Master description of genStatement: a successful walk of one statement
extends the state exactly by its fresh first declarations. -/
theorem genStatement_ok_eq (s : StmtNode) :
    ∀ st st', genStatement s st = .ok st' →
      st' = nextState st (firstDecls (tableNames st.variables_) s) := by
  cases s with
  | assignment x e ln cl =>
    intro st st' h
    simp [genStatement, genAssignment] at h
    by_cases hx : lookupVar st.variables_ x = none
    · have hmem : x ∉ tableNames st.variables_ := (lookupVar_eq_none_iff _ _).mp hx
      simp [hx] at h
      cases hg : genExpr { st with
          variables_ := st.variables_ ++ [(x, st.nextSlot)],
          nextSlot := st.nextSlot + 1,
          diRecords := st.diRecords ++ (if st.debugInfo then [(x, ln, cl)] else []) } e with
      | error er => rw [hg] at h; simp at h
      | ok v =>
        rw [hg] at h
        simp at h
        subst h
        simp [firstDecls, hmem, nextState, withSlots]
    · have hmem : x ∈ tableNames st.variables_ := by
        by_contra hc
        exact hx ((lookupVar_eq_none_iff _ _).mpr hc)
      simp [hx] at h
      cases hg : genExpr st e with
      | error er => rw [hg] at h; simp at h
      | ok v =>
        rw [hg] at h
        simp at h
        subst h
        simp [firstDecls, hmem, nextState_nil]
  | ifStmt cond body ln cl =>
    intro st st' h
    simp [genStatement] at h
    cases hg : genExpr st cond with
    | error er => rw [hg] at h; simp at h
    | ok v =>
      rw [hg] at h
      simp at h
      have := genStmtList_ok_eq body st st' h
      simpa [firstDecls] using this
  | outStmt e ln cl =>
    intro st st' h
    simp [genStatement] at h
    cases hg : genExpr st e with
    | error er => rw [hg] at h; simp at h
    | ok v =>
      rw [hg] at h
      simp at h
      subst h
      simp [firstDecls, nextState_nil]

/-- Master description of genStmtList. -/
theorem genStmtList_ok_eq (l : StmtList) :
    ∀ st st', genStmtList l st = .ok st' →
      st' = nextState st (firstDeclsList (tableNames st.variables_) l) := by
  cases l with
  | nil =>
    intro st st' h
    simp [genStmtList] at h
    subst h
    simp [firstDeclsList, nextState_nil]
  | cons s r =>
    intro st st' h
    simp [genStmtList] at h
    cases hg : genStatement s st with
    | error er => rw [hg] at h; simp at h
    | ok st2 =>
      rw [hg] at h
      simp at h
      have h1 := genStatement_ok_eq s st st2 hg
      have h2 := genStmtList_ok_eq r st2 st' h
      rw [h1, tableNames_nextState] at h2
      rw [h2, ← nextState_append]
      simp [firstDeclsList]

end

mutual

/-- The names of the fresh declarations of a statement are exactly its
assignment targets that were not already seen. -/
theorem firstDecls_mem (s : StmtNode) :
    ∀ seen x, x ∈ (firstDecls seen s).map (fun p => p.1)
      ↔ (x ∉ seen ∧ x ∈ stmtTargets s) := by
  cases s with
  | assignment x0 e ln cl =>
    intro seen x
    by_cases h0 : x0 ∈ seen
    · simp [firstDecls, h0, stmtTargets]
      intro hn hx
      subst hx
      exact hn h0
    · simp [firstDecls, h0, stmtTargets]
      rintro rfl
      exact h0
  | ifStmt cond body ln cl =>
    intro seen x
    simpa [firstDecls, stmtTargets] using firstDeclsList_mem body seen x
  | outStmt e ln cl =>
    intro seen x
    simp [firstDecls, stmtTargets]

/-- The names of the fresh declarations of a statement list. -/
theorem firstDeclsList_mem (l : StmtList) :
    ∀ seen x, x ∈ (firstDeclsList seen l).map (fun p => p.1)
      ↔ (x ∉ seen ∧ x ∈ stmtsTargets l) := by
  cases l with
  | nil =>
    intro seen x
    simp [firstDeclsList, stmtsTargets]
  | cons s r =>
    intro seen x
    have ihs := firstDecls_mem s seen x
    have ihr := firstDeclsList_mem r (seen ++ (firstDecls seen s).map (fun p => p.1)) x
    simp only [firstDeclsList, List.map_append, List.mem_append, stmtsTargets]
    constructor
    · rintro (hd | hr)
      · obtain ⟨hn, ht⟩ := ihs.mp hd
        exact ⟨hn, Or.inl ht⟩
      · obtain ⟨hn, ht⟩ := ihr.mp hr
        rw [List.mem_append] at hn
        push_neg at hn
        exact ⟨hn.1, Or.inr ht⟩
    · rintro ⟨hn, ht | ht⟩
      · exact Or.inl (ihs.mpr ⟨hn, ht⟩)
      · by_cases hd : x ∈ (firstDecls seen s).map (fun p => p.1)
        · exact Or.inl hd
        · refine Or.inr (ihr.mpr ⟨?_, ht⟩)
          rw [List.mem_append]
          push_neg
          exact ⟨hn, hd⟩

end

mutual

/-- Fresh declaration names of one statement are distinct. -/
theorem firstDecls_nodup (s : StmtNode) :
    ∀ seen, ((firstDecls seen s).map (fun p => p.1)).Nodup := by
  cases s with
  | assignment x0 e ln cl =>
    intro seen
    by_cases h0 : x0 ∈ seen <;> simp [firstDecls, h0]
  | ifStmt cond body ln cl =>
    intro seen
    simpa [firstDecls] using firstDeclsList_nodup body seen
  | outStmt e ln cl =>
    intro seen
    simp [firstDecls]

/-- Fresh declaration names of a statement list are distinct: later fresh
names are disjoint from the seen-set that already contains all earlier ones. -/
theorem firstDeclsList_nodup (l : StmtList) :
    ∀ seen, ((firstDeclsList seen l).map (fun p => p.1)).Nodup := by
  cases l with
  | nil =>
    intro seen
    simp [firstDeclsList]
  | cons s r =>
    intro seen
    have ihs := firstDecls_nodup s seen
    have ihr := firstDeclsList_nodup r (seen ++ (firstDecls seen s).map (fun p => p.1))
    simp only [firstDeclsList, List.map_append]
    rw [List.nodup_append]
    refine ⟨ihs, ihr, ?_⟩
    intro x hx hxr
    obtain ⟨hn, _⟩ :=
      (firstDeclsList_mem r (seen ++ (firstDecls seen s).map (fun p => p.1)) x).mp hxr
    rw [List.mem_append] at hn
    push_neg at hn
    exact hn.2 hx

end

/-- genExpr succeeds whenever every variable the expression reads is in the
symbol table and every operator is one of the ten the walk recognises. -/
theorem genExpr_ok_of_vars (st : CGState) (e : ExprNode)
    (hops : exprOpsOK e = true)
    (hvars : ∀ y ∈ exprVars e, lookupVar st.variables_ y ≠ none) :
    ∃ v, genExpr st e = .ok v := by
  induction e with
  | intLit v ln cl => exact ⟨_, rfl⟩
  | varRef n ln cl =>
    have hn := hvars n (by simp [exprVars])
    cases hl : lookupVar st.variables_ n with
    | none => exact absurd hl hn
    | some slot => exact ⟨.load slot n, by simp [genExpr, hl]⟩
  | binop op l r ln cl ihl ihr =>
    simp only [exprOpsOK, Bool.and_eq_true, decide_eq_true_eq] at hops
    obtain ⟨⟨hop, hl⟩, hr⟩ := hops
    obtain ⟨lv, hlv⟩ := ihl hl (fun y hy => hvars y (by simp [exprVars, hy]))
    obtain ⟨rv, hrv⟩ := ihr hr (fun y hy => hvars y (by simp [exprVars, hy]))
    fin_cases hop <;> simp [genExpr, hlv, hrv]

/-! ## Claim theorems -/

/-- Claim C1: for every comparison operation generated by genExpr, the
one-bit result is widened back to i64 so that a true comparison yields the
integer 1 and a false one 0.  The code instead emits CreateSExt of the i1
comparison bit, and sign extension maps the one-bit value 1 to -1: at the
input 1 == 1 the generated value tree is sext(icmp eq 1 1) and its i64 value
is -1, not 1 (the false case 1 == 2 does yield 0). -/
theorem c1_comparison_sext_value :
    Codegen.genExpr (Codegen.initialState .Debug)
        (.binop "==" (.intLit 1 1 5) (.intLit 1 1 10) 1 7)
      = .ok (.sext (.icmp "eq" (.constInt 1) (.constInt 1))) ∧
    Codegen.evalIRVal (fun _ => 0) (.sext (.icmp "eq" (.constInt 1) (.constInt 1))) = -1 ∧
    Codegen.evalIRVal (fun _ => 0) (.sext (.icmp "eq" (.constInt 1) (.constInt 2))) = 0 := by
  refine ⟨rfl, ?_, ?_⟩ <;> decide

/-- Claim C2, counterexample: the claim says the module is verified first
and only after successful verification does the optimization pass run.  In
Codegen::generate the optimize() call precedes llvm::verifyModule: for the
development profile no position of the verification phase lies before a
position of the optimization phase. -/
theorem c2_counterexample :
    ¬ ∃ i j : Nat, i < j ∧
      (Codegen.generatePhases .Development)[i]? = some Codegen.Phase.verifyModule ∧
      (Codegen.generatePhases .Development)[j]?
        = some (Codegen.Phase.runOptimize Codegen.OptPipeline.perModuleO2) := by
  rintro ⟨i, j, hij, hv, ho⟩
  have hp : Codegen.generatePhases .Development
      = [Codegen.Phase.appendRet, Codegen.Phase.finalizeDebugInfo,
         Codegen.Phase.runOptimize Codegen.OptPipeline.perModuleO2,
         Codegen.Phase.verifyModule] := rfl
  rw [hp] at hv ho
  rcases i with _ | _ | _ | _ | i <;> simp at hv
  rcases j with _ | _ | _ | _ | j <;> simp at ho
  omega

/-- Claim C2, amended: in generate the implicit success return is appended
first, debug metadata (when present) is finalized, then the optimization
pass selected by the profile runs, and only after optimization is the module
verified; verification failure aborts with the full diagnostic text. -/
theorem c2_amended_optimize_then_verify :
    (∀ config, (Codegen.generatePhases config)[0]? = some Codegen.Phase.appendRet) ∧
    (∀ config, ∃ i j : Nat, i < j ∧
      (Codegen.generatePhases config)[i]?
        = some (Codegen.Phase.runOptimize (Codegen.optimizePipeline config)) ∧
      (Codegen.generatePhases config)[j]? = some Codegen.Phase.verifyModule) ∧
    Codegen.optimizePipeline .Debug = .noPasses ∧
    Codegen.optimizePipeline .Development = .perModuleO2 ∧
    Codegen.optimizePipeline .Shipping = .ltoO3 ∧
    (∀ errors, Codegen.verifyOutcome (some errors)
      = .error ("LLVM module verification failed:\n" ++ errors)) ∧
    Codegen.verifyOutcome none = .ok () := by
  refine ⟨fun config => by cases config <;> rfl, fun config => ?_, rfl, rfl, rfl,
    fun errors => rfl, rfl⟩
  cases config with
  | Debug => exact ⟨2, 3, by omega, rfl, rfl⟩
  | Development => exact ⟨2, 3, by omega, rfl, rfl⟩
  | Shipping => exact ⟨1, 2, by omega, rfl, rfl⟩

/-- Claim C3, counterexample: the claim says a reference to the target name
inside the right-hand side of its own first declaration fails with an
undefined-variable error.  Generating x = x + 1; as the first statement
succeeds instead (genAssignment registers the fresh slot in variables_
before genExpr evaluates the right-hand side), producing a load of the
uninitialized slot rather than Codegen error. -/
theorem c3_counterexample :
    Codegen.genStatement
        (.assignment "x" (.binop "+" (.varRef "x" 1 5) (.intLit 1 1 9) 1 7) 1 1)
        (Codegen.initialState .Debug)
      = .ok ⟨[("x", 0)], 1, [("x", 1, 1)], true⟩ := rfl

/-- Claim C3, amended: the fresh storage allocation performed before
evaluating the expression DOES make the target name visible to its own
right-hand side: any assignment whose right-hand side reads only the target
itself or already-declared names generates successfully, and afterwards the
target is in the symbol table. -/
theorem c3_amended_target_visible_to_rhs :
    ∀ (st : Codegen.CGState) (x : String) (e : ExprNode) (ln cl : Nat),
      Codegen.exprOpsOK e = true →
      (∀ y ∈ Codegen.exprVars e, y = x ∨ Codegen.lookupVar st.variables_ y ≠ none) →
      ∃ st2, Codegen.genStatement (.assignment x e ln cl) st = .ok st2 ∧
        Codegen.lookupVar st2.variables_ x ≠ none := by
  intro st x e ln cl hops hvars
  by_cases hx : Codegen.lookupVar st.variables_ x = none
  · set st1 : Codegen.CGState :=
      { st with
        variables_ := st.variables_ ++ [(x, st.nextSlot)],
        nextSlot := st.nextSlot + 1,
        diRecords := st.diRecords
          ++ (if st.debugInfo then [(x, ln, cl)] else []) } with hst1
    have hx1 : Codegen.lookupVar st1.variables_ x = some st.nextSlot := by
      simp only [hst1]
      rw [lookupVar_append_none st.variables_ _ x hx]
      simp [Codegen.lookupVar]
    have hvars1 : ∀ y ∈ Codegen.exprVars e, Codegen.lookupVar st1.variables_ y ≠ none := by
      intro y hy
      rcases hvars y hy with hyx | hsome
      · subst hyx
        simp [hx1]
      · cases hv : Codegen.lookupVar st.variables_ y with
        | none => exact absurd hv hsome
        | some v =>
          simp only [hst1]
          rw [lookupVar_append_some st.variables_ _ y v hv]
          simp
    obtain ⟨v, hv⟩ := genExpr_ok_of_vars st1 e hops hvars1
    refine ⟨st1, ?_, by simp [hx1]⟩
    simp [Codegen.genStatement, Codegen.genAssignment, hx, ← hst1, hv]
  · have hvars1 : ∀ y ∈ Codegen.exprVars e, Codegen.lookupVar st.variables_ y ≠ none := by
      intro y hy
      rcases hvars y hy with hyx | hsome
      · subst hyx
        exact hx
      · exact hsome
    obtain ⟨v, hv⟩ := genExpr_ok_of_vars st e hops hvars1
    exact ⟨st, by simp [Codegen.genStatement, Codegen.genAssignment, hx, hv], hx⟩

/-- Witness for the amended C3 theorem at the concrete first declaration
a = a * 2; from the empty symbol table. -/
theorem c3_amended_witness :
    ∃ st2, Codegen.genStatement
        (.assignment "a" (.binop "*" (.varRef "a" 1 5) (.intLit 2 1 9) 1 7) 1 1)
        (Codegen.initialState .Debug) = .ok st2 ∧
      Codegen.lookupVar st2.variables_ "a" ≠ none :=
  c3_amended_target_visible_to_rhs (Codegen.initialState .Debug) "a"
    (.binop "*" (.varRef "a" 1 5) (.intLit 2 1 9) 1 7) 1 1 (by decide) (by decide)

/-- After a successful walk of a statement prefix from the empty table, a
name is absent from the symbol table exactly when it is not an assignment
target anywhere in that prefix (if-bodies included). -/
theorem lookup_after_walk (config : Codegen.BuildConfig) (pre : StmtList)
    (st : Codegen.CGState) (h : Codegen.genStmtList pre (Codegen.initialState config) = .ok st)
    (x : String) :
    Codegen.lookupVar st.variables_ x = none ↔ x ∉ Codegen.stmtsTargets pre := by
  have hm := genStmtList_ok_eq pre _ st h
  subst hm
  rw [lookupVar_eq_none_iff, tableNames_nextState]
  have h0 : tableNames (Codegen.initialState config).variables_ = [] := rfl
  rw [h0]
  simp only [List.nil_append]
  exact not_congr ((firstDeclsList_mem pre [] x).trans (by simp))

/-- Claim C4, counterexample: the claim says a variable reference fails with
undefined-variable exactly when no assignment to the name lies strictly
earlier in traversal order.  In y = y * 2; as the whole program, the read of
y has no strictly earlier assignment, yet generation succeeds, because the
enclosing assignment enters y into the table before its right-hand side is
evaluated. -/
theorem c4_counterexample :
    Codegen.generate .Debug
        (.cons (.assignment "y" (.binop "*" (.varRef "y" 1 5) (.intLit 2 1 9) 1 7) 1 1) .nil)
      = .ok ⟨[("y", 0)], 1, [("y", 1, 1)], true⟩ := rfl

/-- Claim C4, amended: after any successfully generated statement prefix, a
variable read in the next statement fails with the undefined-variable error
(carrying the name and its line) iff the name is not an assignment target in
the prefix AND, when the read occurs in the right-hand side of an
assignment, it is not that assignment's own target; later assignments are
irrelevant, and the failure is the compile-time CodegenError, never a
runtime default. -/
theorem c4_amended_undefined_iff :
    ∀ (config : Codegen.BuildConfig) (pre : StmtList) (st : Codegen.CGState)
      (x : String) (rl rc ol oc : Nat),
      Codegen.genStmtList pre (Codegen.initialState config) = .ok st →
      ((Codegen.genStatement (.outStmt (.varRef x rl rc) ol oc) st
          = .error (.undefinedVariable x rl)) ↔ x ∉ Codegen.stmtsTargets pre) ∧
      (∀ (y : String) (al ac : Nat),
        (Codegen.genStatement (.assignment y (.varRef x rl rc) al ac) st
          = .error (.undefinedVariable x rl)) ↔
          (x ∉ Codegen.stmtsTargets pre ∧ x ≠ y)) := by
  intro config pre st x rl rc ol oc h
  have hA := lookup_after_walk config pre st h x
  constructor
  · constructor
    · intro he
      cases hl : Codegen.lookupVar st.variables_ x with
      | none => exact hA.mp hl
      | some slot => simp [Codegen.genStatement, Codegen.genExpr, hl] at he
    · intro hx
      have hl := hA.mpr hx
      simp [Codegen.genStatement, Codegen.genExpr, hl]
  · intro y al ac
    by_cases hy : Codegen.lookupVar st.variables_ y = none
    · cases hl : Codegen.lookupVar st.variables_ x with
      | some v =>
        have hx : x ∈ Codegen.stmtsTargets pre := by
          by_contra hc
          have := hA.mpr hc
          rw [hl] at this
          cases this
        have hl1 : Codegen.lookupVar (st.variables_ ++ [(y, st.nextSlot)]) x = some v :=
          lookupVar_append_some _ _ _ _ hl
        simp [Codegen.genStatement, Codegen.genAssignment, hy, Codegen.genExpr, hl1]
        intro hc
        exact absurd hx hc
      | none =>
        by_cases hxy : x = y
        · subst hxy
          have hl1 : Codegen.lookupVar (st.variables_ ++ [(x, st.nextSlot)]) x
              = some st.nextSlot := by
            rw [lookupVar_append_none _ _ _ hl]
            simp [Codegen.lookupVar]
          simp [Codegen.genStatement, Codegen.genAssignment, hy, Codegen.genExpr, hl1]
        · have hl1 : Codegen.lookupVar (st.variables_ ++ [(y, st.nextSlot)]) x = none := by
            rw [lookupVar_append_none _ _ _ hl]
            simp [Codegen.lookupVar, Ne.symm hxy]
          simp [Codegen.genStatement, Codegen.genAssignment, hy, Codegen.genExpr, hl1,
            hA.mp hl, hxy]
    · cases hl : Codegen.lookupVar st.variables_ x with
      | some v =>
        have hx : x ∈ Codegen.stmtsTargets pre := by
          by_contra hc
          have := hA.mpr hc
          rw [hl] at this
          cases this
        simp [Codegen.genStatement, Codegen.genAssignment, hy, Codegen.genExpr, hl]
        intro hc
        exact absurd hx hc
      | none =>
        have hxy : x ≠ y := by
          intro hc
          exact hy (hc ▸ hl)
        simp [Codegen.genStatement, Codegen.genAssignment, hy, Codegen.genExpr, hl,
          hA.mp hl, hxy]

/-- Witness for the amended C4 theorem: after the prefix a = 1; the read
out b; fails with the undefined-variable error iff b is not a target of the
prefix. -/
theorem c4_amended_witness :
    (Codegen.genStatement (.outStmt (.varRef "b" 2 5) 2 1)
        ⟨[("a", 0)], 1, [("a", 1, 1)], true⟩
      = .error (.undefinedVariable "b" 2)) ↔
      "b" ∉ Codegen.stmtsTargets (.cons (.assignment "a" (.intLit 1 1 5) 1 1) .nil) :=
  (c4_amended_undefined_iff .Debug (.cons (.assignment "a" (.intLit 1 1 5) 1 1) .nil)
    ⟨[("a", 0)], 1, [("a", 1, 1)], true⟩ "b" 2 5 2 1 rfl).1

set_option maxHeartbeats 2000000 in
/-- Claim C5: the comparison rule chains left-associatively: for every pair
of comparison operators and every a CMP b CMP c, parseExpr produces the
BinaryOp ((a CMP b) CMP c) — the left child is the BinaryOp (a CMP b) — and
consumes exactly the five tokens, with no parse error. -/
theorem c5_comparison_left_assoc :
    ∀ t1 ∈ cmpOps, ∀ t2 ∈ cmpOps,
    ∀ (a b c : String) (la ca l1 c1 lb cb l2 c2 lc cc le ce : Nat),
      Parser.parseExpr 20 ⟨cmpChainTokens t1 t2 a b c la ca l1 c1 lb cb l2 c2 lc cc le ce, 0⟩
        = .ok (.binop t2.2 (.binop t1.2 (.varRef a la ca) (.varRef b lb cb) l1 c1)
            (.varRef c lc cc) l2 c2)
          ⟨cmpChainTokens t1 t2 a b c la ca l1 c1 lb cb l2 c2 lc cc le ce, 5⟩ := by
  intro t1 h1 t2 h2 a b c la ca l1 c1 lb cb l2 c2 lc cc le ce
  fin_cases h1 <;> fin_cases h2 <;>
    simp [Parser.parseExpr, Parser.parseComparison, Parser.parseComparisonLoop,
      Parser.parseAddSub, Parser.parseAddSubLoop, Parser.parseMulDiv, Parser.parseMulDivLoop,
      Parser.parsePrimary, Parser.check, Parser.peek, Parser.advance, cmpChainTokens,
      Parser.defaultToken]

/-- Witness for C5 at the concrete input a == b == c. -/
theorem c5_witness :
    Parser.parseExpr 20
        ⟨cmpChainTokens (.EQ, "==") (.EQ, "==") "a" "b" "c" 1 1 1 3 1 6 1 8 1 11 1 12, 0⟩
      = .ok (.binop "==" (.binop "==" (.varRef "a" 1 1) (.varRef "b" 1 6) 1 3)
          (.varRef "c" 1 11) 1 8)
        ⟨cmpChainTokens (.EQ, "==") (.EQ, "==") "a" "b" "c" 1 1 1 3 1 6 1 8 1 11 1 12, 5⟩ :=
  c5_comparison_left_assoc (.EQ, "==") (by decide) (.EQ, "==") (by decide)
    "a" "b" "c" 1 1 1 3 1 6 1 8 1 11 1 12

/-- Claim C6: a name entered into the symbol table is never removed during
generation — any successfully generated statement preserves every existing
entry with its storage slot — and for every if statement whose body assigns
a variable, after the statement the variable is in the table and a read of
it generates a load of that same slot rather than an undefined-variable
error. -/
theorem c6_symbol_table_never_shrinks :
    (∀ (s : StmtNode) (st st' : Codegen.CGState) (x : String) (slot : Nat),
      Codegen.genStatement s st = .ok st' →
      Codegen.lookupVar st.variables_ x = some slot →
      Codegen.lookupVar st'.variables_ x = some slot) ∧
    (∀ (cond : ExprNode) (body : StmtList) (ln cl : Nat) (st st' : Codegen.CGState)
      (x : String) (rl rc : Nat),
      x ∈ Codegen.stmtsTargets body →
      Codegen.genStatement (.ifStmt cond body ln cl) st = .ok st' →
      ∃ slot, Codegen.lookupVar st'.variables_ x = some slot ∧
        Codegen.genExpr st' (.varRef x rl rc) = .ok (.load slot x)) := by
  constructor
  · intro s st st' x slot h hl
    have hm := genStatement_ok_eq s st st' h
    subst hm
    exact lookupVar_append_some _ _ _ _ hl
  · intro cond body ln cl st st' x rl rc hx h
    have hm := genStatement_ok_eq _ st st' h
    subst hm
    have hnn : Codegen.lookupVar
        (nextState st (firstDecls (tableNames st.variables_)
          (.ifStmt cond body ln cl))).variables_ x ≠ none := by
      intro hc
      rw [lookupVar_eq_none_iff, tableNames_nextState] at hc
      rw [List.mem_append] at hc
      push_neg at hc
      refine hc.2 ((firstDecls_mem _ (tableNames st.variables_) x).mpr ⟨hc.1, ?_⟩)
      simpa [Codegen.stmtTargets] using hx
    cases hl : Codegen.lookupVar
        (nextState st (firstDecls (tableNames st.variables_)
          (.ifStmt cond body ln cl))).variables_ x with
    | none => exact absurd hl hnn
    | some slot => exact ⟨slot, rfl, by simp [Codegen.genExpr, hl]⟩

/-- Witness for C6 at if (1) then w = 2 end followed by a read of w. -/
theorem c6_witness :
    ∃ slot, Codegen.lookupVar
        ((⟨[("w", 0)], 1, [("w", 2, 3)], true⟩ : Codegen.CGState)).variables_ "w" = some slot ∧
      Codegen.genExpr (⟨[("w", 0)], 1, [("w", 2, 3)], true⟩ : Codegen.CGState)
        (.varRef "w" 3 5) = .ok (.load slot "w") :=
  c6_symbol_table_never_shrinks.2 (.intLit 1 1 4)
    (.cons (.assignment "w" (.intLit 2 2 7) 2 3) .nil) 1 1
    (Codegen.initialState .Debug) ⟨[("w", 0)], 1, [("w", 2, 3)], true⟩ "w" 3 5
    (by decide) rfl

/-- Claim C7: with the debug-info axis off (Shipping) a generated module
carries zero declaration records; with it on, it carries exactly one record
per distinct assigned variable name — distinct names, covering exactly the
assignment targets — positioned at that name's first assignment in
traversal order (the first-occurrence list firstDeclsList). -/
theorem c7_debug_records :
    ∀ (config : Codegen.BuildConfig) (program : StmtList) (st' : Codegen.CGState),
      Codegen.generate config program = .ok st' →
      (config = .Shipping → st'.diRecords = []) ∧
      (config ≠ .Shipping →
        st'.diRecords = Codegen.firstDeclsList [] program ∧
        (st'.diRecords.map (fun p => p.1)).Nodup ∧
        ∀ x, x ∈ st'.diRecords.map (fun p => p.1) ↔ x ∈ Codegen.stmtsTargets program) := by
  intro config program st' h
  have hm := genStmtList_ok_eq program (Codegen.initialState config) st' h
  have h0 : tableNames (Codegen.initialState config).variables_ = [] := rfl
  rw [h0] at hm
  subst hm
  constructor
  · intro hc
    subst hc
    rfl
  · intro hc
    have hd : (Codegen.initialState config).debugInfo = true := by
      cases config with
      | Debug => rfl
      | Development => rfl
      | Shipping => exact absurd rfl hc
    have hrec : (nextState (Codegen.initialState config)
        (Codegen.firstDeclsList [] program)).diRecords
        = Codegen.firstDeclsList [] program := by
      simp [nextState, hd]
      rfl
    refine ⟨hrec, ?_, ?_⟩
    · rw [hrec]
      exact firstDeclsList_nodup program []
    · intro x
      rw [hrec]
      simpa using firstDeclsList_mem program [] x

/-- Witness for C7: the program x = 1; if (x) then z = 3 end; x = 4; under
the Debug profile carries exactly the records (x at 1:1) and (z at 3:5). -/
theorem c7_witness :
    ((⟨[("x", 0), ("z", 1)], 2, [("x", 1, 1), ("z", 3, 5)], true⟩ : Codegen.CGState)).diRecords
      = Codegen.firstDeclsList []
          (.cons (.assignment "x" (.intLit 1 1 5) 1 1)
            (.cons (.ifStmt (.varRef "x" 2 5)
                (.cons (.assignment "z" (.intLit 3 3 9) 3 5) .nil) 2 1)
              (.cons (.assignment "x" (.intLit 4 4 5) 4 1) .nil))) :=
  ((c7_debug_records .Debug
      (.cons (.assignment "x" (.intLit 1 1 5) 1 1)
        (.cons (.ifStmt (.varRef "x" 2 5)
            (.cons (.assignment "z" (.intLit 3 3 9) 3 5) .nil) 2 1)
          (.cons (.assignment "x" (.intLit 4 4 5) 4 1) .nil)))
      ⟨[("x", 0), ("z", 1)], 2, [("x", 1, 1), ("z", 3, 5)], true⟩ rfl).2 (by decide)).1

/-- Inversion of one iteration of the tokenize loop: it either appends the
end-of-input token and stops, consumes one token and recurses, or throws one
of the two lexer errors. -/
theorem tokenizeLoop_succ_inv (n : Nat) (st : Lexer.LState) (acc : List Token) :
    (∃ ln cl, Lexer.tokenizeLoop (n + 1) st acc
        = .ok (acc ++ [⟨.EOF_TOKEN, "", ln, cl⟩])) ∨
    (∃ st2 t, Lexer.tokenizeLoop (n + 1) st acc
        = Lexer.tokenizeLoop n st2 (acc ++ [t])) ∨
    (∃ line, Lexer.tokenizeLoop (n + 1) st acc = .err (Lexer.bangMsg line)) ∨
    (∃ c line, Lexer.tokenizeLoop (n + 1) st acc = .err (Lexer.charMsg c line)) := by
  rw [Lexer.tokenizeLoop.eq_def]
  dsimp only
  generalize Lexer.skipWhitespaceAndComments (st.source.length + 1) st = st1
  by_cases c0 : st1.source.length ≤ st1.pos
  · rw [if_pos c0]
    exact Or.inl ⟨st1.line, st1.col, rfl⟩
  · rw [if_neg c0]
    by_cases c1 : Lexer.isDigitC (Lexer.peek st1 0) = true
    · rw [if_pos c1]
      exact Or.inr (Or.inl ⟨_, _, rfl⟩)
    · rw [if_neg c1]
      by_cases c2 : (Lexer.isAlphaC (Lexer.peek st1 0) || decide (Lexer.peek st1 0 = '_')) = true
      · rw [if_pos c2]
        exact Or.inr (Or.inl ⟨_, _, rfl⟩)
      · rw [if_neg c2]
        by_cases c3 : Lexer.peek st1 0 = '='
        · rw [if_pos c3]
          by_cases c4 : Lexer.peek (Lexer.advance st1).2 0 = '='
          · rw [if_pos c4]
            exact Or.inr (Or.inl ⟨_, _, rfl⟩)
          · rw [if_neg c4]
            exact Or.inr (Or.inl ⟨_, _, rfl⟩)
        · rw [if_neg c3]
          by_cases c5 : Lexer.peek st1 0 = '!'
          · rw [if_pos c5]
            by_cases c6 : Lexer.peek (Lexer.advance st1).2 0 = '='
            · rw [if_pos c6]
              exact Or.inr (Or.inl ⟨_, _, rfl⟩)
            · rw [if_neg c6]
              exact Or.inr (Or.inr (Or.inl ⟨st1.line, rfl⟩))
          · rw [if_neg c5]
            by_cases c7 : Lexer.peek st1 0 = '<'
            · rw [if_pos c7]
              by_cases c8 : Lexer.peek (Lexer.advance st1).2 0 = '='
              · rw [if_pos c8]
                exact Or.inr (Or.inl ⟨_, _, rfl⟩)
              · rw [if_neg c8]
                exact Or.inr (Or.inl ⟨_, _, rfl⟩)
            · rw [if_neg c7]
              by_cases c9 : Lexer.peek st1 0 = '>'
              · rw [if_pos c9]
                by_cases c10 : Lexer.peek (Lexer.advance st1).2 0 = '='
                · rw [if_pos c10]
                  exact Or.inr (Or.inl ⟨_, _, rfl⟩)
                · rw [if_neg c10]
                  exact Or.inr (Or.inl ⟨_, _, rfl⟩)
              · rw [if_neg c9]
                by_cases ca : Lexer.peek st1 0 = '+'
                · rw [if_pos ca]
                  exact Or.inr (Or.inl ⟨_, _, rfl⟩)
                · rw [if_neg ca]
                  by_cases cb : Lexer.peek st1 0 = '-'
                  · rw [if_pos cb]
                    exact Or.inr (Or.inl ⟨_, _, rfl⟩)
                  · rw [if_neg cb]
                    by_cases cc : Lexer.peek st1 0 = '*'
                    · rw [if_pos cc]
                      exact Or.inr (Or.inl ⟨_, _, rfl⟩)
                    · rw [if_neg cc]
                      by_cases cd : Lexer.peek st1 0 = '/'
                      · rw [if_pos cd]
                        exact Or.inr (Or.inl ⟨_, _, rfl⟩)
                      · rw [if_neg cd]
                        by_cases ce : Lexer.peek st1 0 = ';'
                        · rw [if_pos ce]
                          exact Or.inr (Or.inl ⟨_, _, rfl⟩)
                        · rw [if_neg ce]
                          by_cases cf : Lexer.peek st1 0 = '('
                          · rw [if_pos cf]
                            exact Or.inr (Or.inl ⟨_, _, rfl⟩)
                          · rw [if_neg cf]
                            by_cases cg : Lexer.peek st1 0 = ')'
                            · rw [if_pos cg]
                              exact Or.inr (Or.inl ⟨_, _, rfl⟩)
                            · rw [if_neg cg]
                              by_cases ch : Lexer.peek st1 0 = Char.ofNat 123
                              · rw [if_pos ch]
                                exact Or.inr (Or.inl ⟨_, _, rfl⟩)
                              · rw [if_neg ch]
                                by_cases ci : Lexer.peek st1 0 = Char.ofNat 125
                                · rw [if_pos ci]
                                  exact Or.inr (Or.inl ⟨_, _, rfl⟩)
                                · rw [if_neg ci]
                                  exact Or.inr (Or.inr (Or.inr ⟨Lexer.peek st1 0, st1.line, rfl⟩))

/-- Claim C8, counterexample: the claim says every lexer failure reports the
offending character together with both its line and its column.  The thrown
message contains only the character and the line: the sources "@" and
"   @" put the offending character at columns 1 and 4 of line 1 (the
lexer's own column counter shown below), yet both produce the identical
message, so the message cannot carry the column. -/
theorem c8_counterexample :
    Lexer.tokenize "@" = .err "Unexpected character \x27@\x27 at line 1" ∧
    Lexer.tokenize "   @" = .err "Unexpected character \x27@\x27 at line 1" ∧
    (Lexer.skipWhitespaceAndComments 2 (Lexer.mkLexer "@")).col = 1 ∧
    (Lexer.skipWhitespaceAndComments 5 (Lexer.mkLexer "   @")).col = 4 :=
  ⟨rfl, rfl, rfl, rfl⟩

/-- Claim C8, amended: every lexer failure — an unrecognized character, or
an exclamation mark not followed by an equals sign — reports the offending
character together with its line; the column is not part of the message. -/
theorem c8_amended_errors_report_char_and_line :
    ∀ (n : Nat) (st : Lexer.LState) (acc : List Token) (msg : String),
      Lexer.tokenizeLoop n st acc = .err msg →
      ∃ line : Nat, msg = Lexer.bangMsg line ∨ ∃ c : Char, msg = Lexer.charMsg c line := by
  intro n
  induction n with
  | zero =>
    intro st acc msg h
    exact Lexer.LexRes.noConfusion h
  | succ n ih =>
    intro st acc msg h
    rcases tokenizeLoop_succ_inv n st acc with
      ⟨ln, cl, heq⟩ | ⟨st2, t, heq⟩ | ⟨line, heq⟩ | ⟨c, line, heq⟩ <;> rw [heq] at h
    · exact Lexer.LexRes.noConfusion h
    · exact ih _ _ _ h
    · injection h with h2
      exact ⟨line, Or.inl h2.symm⟩
    · injection h with h2
      exact ⟨line, Or.inr ⟨c, h2.symm⟩⟩

/-- Witness for the amended C8 theorem at the failing run on the source "@". -/
theorem c8_amended_witness :
    ∃ line : Nat, "Unexpected character \x27@\x27 at line 1" = Lexer.bangMsg line ∨
      ∃ c : Char, "Unexpected character \x27@\x27 at line 1" = Lexer.charMsg c line :=
  c8_amended_errors_report_char_and_line 2 (Lexer.mkLexer "@") []
    "Unexpected character \x27@\x27 at line 1" rfl

/-- Claim C9: an integer-literal lexeme whose value exceeds the largest
signed 64-bit integer makes parsing throw (std::stoll raises out_of_range),
aborting the compilation with no partial AST; a literal within range
produces an IntLiteral node with exactly that value.  The last conjunct
shows the abort of a whole-program parse containing 9223372036854775808. -/
theorem c9_int_literal_range :
    ∀ (s : String) (ln cl le ce : Nat),
      (2 ^ 63 - 1 < Parser.digitsVal s →
        Parser.parsePrimary 5 ⟨intLitTokens s ln cl le ce, 0⟩
          = .err "stoll: out of range") ∧
      (Parser.digitsVal s ≤ 2 ^ 63 - 1 →
        Parser.parsePrimary 5 ⟨intLitTokens s ln cl le ce, 0⟩
          = .ok (.intLit (Int.ofNat (Parser.digitsVal s)) ln cl)
            ⟨intLitTokens s ln cl le ce, 1⟩) ∧
      Parser.parse hugeLiteralTokens = .err "stoll: out of range" := by
  intro s ln cl le ce
  refine ⟨?_, ?_, rfl⟩
  · intro h
    have hn : ¬ (Parser.digitsVal s ≤ 2 ^ 63 - 1) := by omega
    simp [Parser.parsePrimary, Parser.check, Parser.peek, Parser.advance, Parser.stollDigits,
      intLitTokens, Parser.defaultToken, hn]
    have hn2 : ¬ (Parser.digitsVal s ≤ 9223372036854775807) := hn
    rw [if_neg hn2]
  · intro h
    simp [Parser.parsePrimary, Parser.check, Parser.peek, Parser.advance, Parser.stollDigits,
      intLitTokens, Parser.defaultToken, h]
    have h2 : Parser.digitsVal s ≤ 9223372036854775807 := h
    rw [if_pos h2]

/-- Witness for C9 at 9223372036854775808 (one past the maximum) and 42. -/
theorem c9_witness :
    Parser.parsePrimary 5 ⟨intLitTokens "9223372036854775808" 1 5 1 24, 0⟩
      = .err "stoll: out of range" ∧
    Parser.parsePrimary 5 ⟨intLitTokens "42" 1 1 1 3, 0⟩
      = .ok (.intLit (Int.ofNat (Parser.digitsVal "42")) 1 1) ⟨intLitTokens "42" 1 1 1 3, 1⟩ :=
  ⟨(c9_int_literal_range "9223372036854775808" 1 5 1 24).1 (by decide),
   (c9_int_literal_range "42" 1 1 1 3).2.1 (by decide)⟩

/-- Claim C10: for token lists ending in the end-of-input token (which
tokenize always appends, second conjunct), every parser lookahead is total —
peeking at or past the end returns the final token (first conjunct) — and an
if body left unterminated at the end of input raises the parse error for the
missing closing brace instead of reading past the sequence (the concrete
end-to-end run of the last two conjuncts). -/
theorem c10_lookahead_total_and_unterminated_if :
    (∀ (tokens : List Token) (pos off : Nat) (h : tokens ≠ []),
      tokens.length ≤ pos + off →
      Parser.peek ⟨tokens, pos⟩ off = tokens.getLast h) ∧
    (∀ (n : Nat) (st : Lexer.LState) (acc toks : List Token),
      Lexer.tokenizeLoop n st acc = .ok toks →
      ∃ ln cl, toks.getLast? = some ⟨.EOF_TOKEN, "", ln, cl⟩) ∧
    Lexer.tokenize unterminatedIfSource = .ok unterminatedIfTokens ∧
    Parser.parse unterminatedIfTokens
      = .err "Parse error at line 1, col 16: Expected \x27\x7d\x27 to close if-body (got \x27\x27)" := by
  refine ⟨?_, ?_, rfl, rfl⟩
  · intro tokens pos off h hle
    simp only [Parser.peek]
    rw [if_neg (by omega)]
    rw [List.getLastD_eq_getLast?, List.getLast?_eq_getLast _ h]
    rfl
  · intro n
    induction n with
    | zero =>
      intro st acc toks h
      exact Lexer.LexRes.noConfusion h
    | succ n ih =>
      intro st acc toks h
      rcases tokenizeLoop_succ_inv n st acc with
        ⟨ln, cl, heq⟩ | ⟨st2, t, heq⟩ | ⟨line, heq⟩ | ⟨c, line, heq⟩ <;> rw [heq] at h
      · injection h with h2
        exact ⟨ln, cl, by rw [← h2]; simp⟩
      · exact ih _ _ _ h
      · exact Lexer.LexRes.noConfusion h
      · exact Lexer.LexRes.noConfusion h

/-- Witness for C10: a peek five positions past a one-token list returns its
last token, and the tokenized unterminated-if source ends in the
end-of-input token. -/
theorem c10_witness :
    Parser.peek ⟨[Parser.defaultToken], 5⟩ 0 = Parser.defaultToken ∧
    (∃ ln cl, unterminatedIfTokens.getLast? = some ⟨.EOF_TOKEN, "", ln, cl⟩) :=
  ⟨by
    have h := c10_lookahead_total_and_unterminated_if.1 [Parser.defaultToken] 5 0
      (by simp) (by simp)
    simpa using h,
   c10_lookahead_total_and_unterminated_if.2.1 16 (Lexer.mkLexer unterminatedIfSource) []
     unterminatedIfTokens c10_lookahead_total_and_unterminated_if.2.2.1⟩

end Nano
